import Mathlib

/-!
Verification of `src/composables/useSubscriptions.js` (MiSub).

The composable manages a list of subscription records, derived views
(pagination, enabled subset, remaining-traffic aggregate), a single-item
refresher (`handleUpdateNodeCount`), a batch refresher with degradation
(`addSubscriptionsFromBulk`), a global auto-update timer (`setupAutoUpdate`)
and per-item timers (`setupIndividualUpdateTimers`).

The embedding below is a shallow, executable translation of that file:
- JS numbers that hold counts/quota are modelled as `Int`;
- JS truthiness is translated at each use site (`x || d` on a possibly
  absent value becomes `Option.getD`, with the 0/""-falsy cases spelled
  out where they matter, e.g. `updateInterval || null`);
- the external collaborators `fetchNodeCount`, `batchUpdateNodes` are
  oracles passed as function arguments; an exception thrown by a
  collaborator is one of the oracle's result constructors (`.err`,
  `.threw`), so a caught exception is ordinary data here;
- `async` interleaving: each operation is modelled as the atomic effect of
  its full run; for `updateSubscription`, whose fire-and-forget refresh
  interleaves with the record replacement, the model follows the JS event
  loop ordering exactly (see the comment on `updateSubscription`);
- timers (`setInterval` / `clearInterval`) are a list of live
  `(handle, entry)` pairs plus a fresh-handle counter.
-/

namespace MiSub

/-- Quota structure returned by the remote fetch (`{upload, download, total}`).
The JS code guards `upload`/`download` with `|| 0`; an absent field is
modelled as the value `0`. -/
structure UserInfo where
  upload : Int
  download : Int
  total : Int
deriving DecidableEq, Repr

/-- A subscription record as normalized by `initializeSubscriptions` /
manipulated by the composable. `updateTimers` is the per-record list of
live timer handles pushed by `setupIndividualUpdateTimers`. -/
structure Subscription where
  id : String
  name : String
  url : String
  enabled : Bool
  nodeCount : Int
  isUpdating : Bool
  userInfo : Option UserInfo
  exclude : String
  updateInterval : Option Int
  updateTimers : List Nat
deriving DecidableEq, Repr

/-- `url.startsWith('http')` — the participation test used everywhere in the
source (lines 37, 75, 164, 227): the string begins with the four characters
`h`, `t`, `t`, `p`. Stated on the character list so that it evaluates by
`decide`. -/
def isHttpUrl (u : String) : Bool := "http".data.isPrefixOf u.data

/-- `sub.updateInterval && sub.updateInterval > 0` (line 75): `null` and `0`
are falsy, so only a present, strictly positive interval is eligible. -/
def hasPositiveInterval : Option Int → Bool
  | none => false
  | some v => decide (0 < v)

/-! ## Normalization (`initializeSubscriptions`, lines 122–135) -/

/-- Host-supplied raw record, before normalization. A missing `id` is the
empty string (JS `sub.id || crypto.randomUUID()` treats `''` and absence
alike); `exclude` likewise. Other optional fields are `Option`. -/
structure RawSubscription where
  id : String
  name : String
  url : String
  enabled : Option Bool
  nodeCount : Option Int
  userInfo : Option UserInfo
  exclude : String
  updateInterval : Option Int
  updateTimers : List Nat
deriving DecidableEq, Repr

/-- `sub.updateInterval || null` (line 131): absent stays absent, `0` is
falsy and becomes `null`, any other integer is kept. -/
def normalizeInterval : Option Int → Option Int
  | none => none
  | some v => if v = 0 then none else some v

/-- The object literal at lines 123–132: `{...sub, id: sub.id || uuid,
enabled: sub.enabled ?? true, nodeCount: sub.nodeCount || 0,
isUpdating: false, userInfo: sub.userInfo || null, exclude: sub.exclude || '',
updateInterval: sub.updateInterval || null}`.  (`n || 0` is the identity on
a present integer since `0 || 0 = 0`.) -/
def normalizeSub (freshId : String) (sub : RawSubscription) : Subscription :=
  { id := if sub.id = "" then freshId else sub.id
    name := sub.name
    url := sub.url
    enabled := sub.enabled.getD true
    nodeCount := sub.nodeCount.getD 0
    isUpdating := false
    userInfo := sub.userInfo
    exclude := sub.exclude
    updateInterval := normalizeInterval sub.updateInterval
    updateTimers := sub.updateTimers }

/-- `(subsData || []).map(...)` with one `crypto.randomUUID()` call per
element that lacks an id; the UUID supply is modelled as `uuidGen` applied
to the element's position (distinct calls of the generator). -/
def initFrom (uuidGen : Nat → String) (i : Nat) : List RawSubscription → List Subscription
  | [] => []
  | sub :: rest => normalizeSub (uuidGen i) sub :: initFrom uuidGen (i + 1) rest

/-- `initializeSubscriptions` (lines 122–135). The per-record refresh loop
at line 134 is commented out in the source, so initialization performs no
fetch at all. -/
def initializeSubscriptions (uuidGen : Nat → String) (subsData : List RawSubscription) :
    List Subscription :=
  initFrom uuidGen 0 subsData

/-! ## Derived views (lines 137–155) -/

/-- `enabledSubscriptions` (line 137). -/
def enabledSubscriptions (subs : List Subscription) : List Subscription :=
  subs.filter (fun s => s.enabled)

/-- `totalRemainingTraffic` (lines 139–148): a `reduce` over the collection;
the guard is `sub.enabled && sub.userInfo && sub.userInfo.total > 0`, the
contribution `Math.max(0, total - ((upload||0)+(download||0)))`. -/
def totalRemainingTraffic (subs : List Subscription) : Int :=
  subs.foldl
    (fun acc sub =>
      if sub.enabled then
        match sub.userInfo with
        | some ui =>
          if 0 < ui.total then acc + max 0 (ui.total - (ui.upload + ui.download)) else acc
        | none => acc
      else acc)
    0

/-- `subsItemsPerPage = 6` (line 10). -/
def subsItemsPerPage : Nat := 6

/-- `subsTotalPages = Math.ceil(length / 6)` (line 150), as Nat ceiling
division. -/
def subsTotalPages (subs : List Subscription) : Nat :=
  (subs.length + 5) / 6

/-- `paginatedSubscriptions` (lines 151–155): `slice(start, start+6)` with
`start = (page-1)*6`; the app keeps `page ≥ 1` (`changeSubsPage`), and for
such pages `slice` is drop-then-take. -/
def paginatedSubscriptions (page : Nat) (subs : List Subscription) : List Subscription :=
  (subs.drop ((page - 1) * subsItemsPerPage)).take subsItemsPerPage

/-! ## Single-item refresher (`handleUpdateNodeCount`, lines 162–185) -/

/-- Payload of a successful `fetchNodeCount`; the code reads `data.count || 0`
and `data.userInfo || null`, so both fields may be absent. -/
structure FetchData where
  count : Option Int
  userInfo : Option UserInfo
deriving DecidableEq, Repr

/-- Outcome of `await fetchNodeCount(url)`: a value, or a thrown error
(caught at line 179). -/
inductive FetchResult where
  | ok (data : FetchData)
  | err
deriving DecidableEq, Repr

/-- Mutating the object returned by `Array.prototype.find`: the first list
element satisfying `p` is replaced by its image under `f`. -/
def updateFirst (p : Subscription → Bool) (f : Subscription → Subscription) :
    List Subscription → List Subscription
  | [] => []
  | s :: rest => if p s then f s :: rest else s :: updateFirst p f rest

/-- Index of the first record with the given id (the one `find` /
`findIndex` return). -/
def firstIdxOf (id : String) : List Subscription → Option Nat
  | [] => none
  | s :: rest => if s.id = id then some 0 else (firstIdxOf id rest).map (· + 1)

/-- Result of one full run of `handleUpdateNodeCount`: the collection at the
suspension point (just before `await fetchNodeCount`), the collection after
the run completes, the URL passed to `fetchNodeCount` (if it was called),
and whether `markDirty()` was called. -/
structure RefreshResult where
  pre : List Subscription
  post : List Subscription
  fetched : Option String
  markedDirty : Bool
deriving Repr

/-- `handleUpdateNodeCount(subId, isInitialLoad)` (lines 162–185):
returns early when no record matches or its URL is not HTTP(S); otherwise
sets `isUpdating := true` (unless initial), fetches, writes
`nodeCount := data.count || 0` and `userInfo := data.userInfo || null` on
success (toast + `markDirty` unless initial), and the `finally` block sets
`isUpdating := false` on every path. The thrown-error path is the `.err`
branch; nothing escapes the `try/catch/finally`. -/
def handleUpdateNodeCount (fetch : String → FetchResult) (subs : List Subscription)
    (subId : String) (isInitialLoad : Bool) : RefreshResult :=
  match subs.find? (fun s => s.id == subId) with
  | none => ⟨subs, subs, none, false⟩
  | some subToUpdate =>
    if isHttpUrl subToUpdate.url then
      let pre :=
        if isInitialLoad then subs
        else updateFirst (fun s => s.id == subId) (fun s => { s with isUpdating := true }) subs
      match fetch subToUpdate.url with
      | .ok data =>
        ⟨pre,
         updateFirst (fun s => s.id == subId)
           (fun s => { s with nodeCount := data.count.getD 0, userInfo := data.userInfo,
                              isUpdating := false }) pre,
         some subToUpdate.url, !isInitialLoad⟩
      | .err =>
        ⟨pre,
         updateFirst (fun s => s.id == subId) (fun s => { s with isUpdating := false }) pre,
         some subToUpdate.url, false⟩
    else ⟨subs, subs, none, false⟩

/-! ## Batch refresher (`batchUpdateNodes` callers, lines 35–64, 76–101, 232–265) -/

/-- One element of `result.results` from `batchUpdateNodes`. -/
structure BatchItemResult where
  id : String
  success : Bool
  nodeCount : Int
deriving DecidableEq, Repr

/-- Outcome of `await batchUpdateNodes(ids)`: a completed response with its
`success` flag and per-id results, or a thrown transport error. -/
inductive BatchOutcome where
  | completed (success : Bool) (results : List BatchItemResult)
  | threw
deriving Repr

/-- Applying one per-id result (lines 44–52 / 82–90 / 237–245): if the
result is successful, find the record by id — if present, overwrite its
`nodeCount`; a missing record is skipped (`if (sub)`). -/
def applyBatchResult (subs : List Subscription) (r : BatchItemResult) : List Subscription :=
  if r.success then
    updateFirst (fun s => s.id == r.id) (fun s => { s with nodeCount := r.nodeCount }) subs
  else subs

/-- `result.results.forEach(...)` — fold of `applyBatchResult` in order. -/
def applyBatchResults (subs : List Subscription) (results : List BatchItemResult) :
    List Subscription :=
  results.foldl applyBatchResult subs

/-- Events emitted towards the two network collaborators. -/
inductive Ev where
  | singleFetch (url : String)
  | batchCall (ids : List String)
deriving DecidableEq, Repr

/-- Result of a batch-driven operation: final collection, ids submitted to
`batchUpdateNodes` (if it was called), ids passed to the single-item
refresher during degradation (in call order), URLs it actually fetched,
and the dirty flag. -/
structure BatchRunResult where
  subs : List Subscription
  batchCalled : Option (List String)
  singleInvocations : List String
  singleFetches : List String
  markedDirty : Bool
deriving Repr

/-- One tick of the global auto-update timer (lines 35–64): filter the
enabled HTTP(S) records; if any, call `batchUpdateNodes` over their ids;
on `success` apply the per-id results and mark dirty; on `success:false`
or a thrown error only `console.error` runs — there is no degradation in
this context. -/
def globalAutoUpdateTick (batch : List String → BatchOutcome) (subs : List Subscription) :
    BatchRunResult :=
  let enabledSubs := subs.filter (fun s => s.enabled && isHttpUrl s.url)
  if enabledSubs.isEmpty then ⟨subs, none, [], [], false⟩
  else
    let ids := enabledSubs.map (fun s => s.id)
    match batch ids with
    | .completed true results => ⟨applyBatchResults subs results, some ids, [], [], true⟩
    | .completed false _ => ⟨subs, some ids, [], [], false⟩
    | .threw => ⟨subs, some ids, [], [], false⟩

/-- The body of one per-item timer tick (lines 76–100): `batchUpdateNodes`
over the singleton `[sub.id]`; on `success` apply results (nodeCount only)
and mark dirty; otherwise only `console.error`. Returns the new collection
and the dirty flag. -/
def individualUpdateTick (batch : List String → BatchOutcome) (subs : List Subscription)
    (subId : String) : List Subscription × Bool :=
  match batch [subId] with
  | .completed true results => (applyBatchResults subs results, true)
  | .completed false _ => (subs, false)
  | .threw => (subs, false)

/-- The degradation loop (lines 254–256 / 262–264): `for (const sub of
subsToUpdate) await handleUpdateNodeCount(sub.id)` — strictly sequential,
each call awaited on the state the previous one produced. Accumulates the
invoked ids and the URLs actually fetched. -/
def degradeSequentially (fetch : String → FetchResult) (subs : List Subscription)
    (toUpdate : List Subscription) : List Subscription × List String × List String :=
  toUpdate.foldl
    (fun acc sub =>
      let r := handleUpdateNodeCount fetch acc.1 sub.id false
      (r.post, acc.2.1 ++ [sub.id], acc.2.2 ++ r.fetched.toList))
    (subs, [], [])

/-- `addSubscriptionsFromBulk(subs)` (lines 222–269): prepend the new
records, mark dirty, filter the HTTP(S) subset (`sub.url &&
sub.url.startsWith('http')`; `''` is falsy but also fails `startsWith`),
and if non-empty call `batchUpdateNodes`; apply results on `success`,
degrade to sequential single-item refreshes when the call reports
`success:false` or throws. -/
def addSubscriptionsFromBulk (batch : List String → BatchOutcome)
    (fetch : String → FetchResult) (subs : List Subscription)
    (newSubs : List Subscription) : BatchRunResult :=
  let subs1 := newSubs ++ subs
  let subsToUpdate := newSubs.filter (fun s => isHttpUrl s.url)
  if subsToUpdate.isEmpty then ⟨subs1, none, [], [], true⟩
  else
    let ids := subsToUpdate.map (fun s => s.id)
    match batch ids with
    | .completed true results => ⟨applyBatchResults subs1 results, some ids, [], [], true⟩
    | .completed false _ =>
      let d := degradeSequentially fetch subs1 subsToUpdate
      ⟨d.1, some ids, d.2.1, d.2.2, true⟩
    | .threw =>
      let d := degradeSequentially fetch subs1 subsToUpdate
      ⟨d.1, some ids, d.2.1, d.2.2, true⟩

/-! ## `updateSubscription` (lines 194–204)

The source:
```
const index = subscriptions.value.findIndex(s => s.id === updatedSub.id);
if (index !== -1) {
  if (subscriptions.value[index].url !== updatedSub.url) {
    updatedSub.nodeCount = 0;
    handleUpdateNodeCount(updatedSub.id); // fire-and-forget, async
  }
  subscriptions.value[index] = updatedSub;
  markDirty();
}
```
`handleUpdateNodeCount` is called BEFORE the slot is replaced.  Its
synchronous prefix runs against the old array: `find` returns the OLD
record (same first-match position as `findIndex`), the HTTP check uses the
OLD url, `isUpdating := true` is written to the OLD object, and
`fetchNodeCount(subToUpdate.url)` is started with the OLD url.  The
`await` then suspends; `subscriptions.value[index] = updatedSub` and
`markDirty()` run.  When the fetch settles, the continuation writes
`nodeCount`/`userInfo`/`isUpdating` onto the OLD object — which is no
longer in the array, so that write is lost.  Net effect on the collection:
the first matching record is replaced by `updatedSub` (with `nodeCount`
forced to 0 when the url changed) and nothing else; the fetch, if any,
used the old url and its result landed on the detached object
(`lostWrite`). -/

/-- Net outcome of one full run of `updateSubscription` including the
completion of the refresh it fires. -/
structure UpdateOutcome where
  subs : List Subscription
  fetched : Option String
  lostWrite : Option (Int × Option UserInfo)
  markedDirty : Bool
deriving Repr

/-- `updateSubscription(updatedSub)` (lines 194–204), as derived above. -/
def updateSubscription (fetch : String → FetchResult) (subs : List Subscription)
    (updatedSub : Subscription) : UpdateOutcome :=
  match subs.find? (fun s => s.id == updatedSub.id) with
  | none => ⟨subs, none, none, false⟩
  | some old =>
    if old.url == updatedSub.url then
      ⟨updateFirst (fun s => s.id == updatedSub.id) (fun _ => updatedSub) subs,
       none, none, true⟩
    else
      let u := { updatedSub with nodeCount := 0 }
      let subs' := updateFirst (fun s => s.id == updatedSub.id) (fun _ => u) subs
      if isHttpUrl old.url then
        match fetch old.url with
        | .ok data => ⟨subs', some old.url, some (data.count.getD 0, data.userInfo), true⟩
        | .err => ⟨subs', some old.url, none, true⟩
      else ⟨subs', none, none, true⟩

/-! ## Timers (`setupIndividualUpdateTimers` lines 69–110,
`clearIndividualUpdateTimers` lines 113–120, deletion lines 206–218) -/

/-- What a live `setInterval` callback does when it fires. -/
inductive TimerAction where
  | globalTick
  | perItemTick (subId : String)
deriving DecidableEq, Repr

/-- A live recurring timer: its period in milliseconds and its action. -/
structure TimerEntry where
  period : Int
  action : TimerAction
deriving DecidableEq, Repr

/-- Component state relevant to the per-item scheduler: the collection, the
set of live per-item timers (handle ↦ entry), the next fresh handle, and
the current page. -/
structure AppState where
  subs : List Subscription
  timers : List (Nat × TimerEntry)
  nextHandle : Nat
  page : Nat
deriving Repr

/-- Eligibility for a per-item timer (line 75):
`sub.enabled && sub.url.startsWith('http') && sub.updateInterval &&
sub.updateInterval > 0`. -/
def perItemEligible (s : Subscription) : Bool :=
  s.enabled && isHttpUrl s.url && hasPositiveInterval s.updateInterval

/-- `sub.updateInterval * 60 * 1000` (line 101). -/
def perItemPeriod (s : Subscription) : Int :=
  s.updateInterval.getD 0 * 60 * 1000

/-- All handles tracked on records (`sub.updateTimers` across the
collection). -/
def trackedHandles (subs : List Subscription) : List Nat :=
  (subs.map (fun s => s.updateTimers)).flatten

/-- `clearIndividualUpdateTimers` (lines 113–120): `clearInterval` every
tracked handle (removing it from the live set) and reset every record's
`updateTimers` to `[]`. -/
def clearIndividualUpdateTimers (st : AppState) : AppState :=
  { st with
    timers := st.timers.filter (fun ht => !(trackedHandles st.subs).contains ht.1)
    subs := st.subs.map (fun s => { s with updateTimers := [] }) }

/-- The `forEach` arming loop (lines 74–109): for each eligible record, in
order, allocate a fresh handle for a recurring timer with period
`updateInterval*60*1000` whose callback is the per-item tick for that
record's id, and push the handle onto the record's `updateTimers`. Returns
the rebuilt records, the created timers, and the next fresh handle. -/
def armTimers (next : Nat) :
    List Subscription → List Subscription × List (Nat × TimerEntry) × Nat
  | [] => ([], [], next)
  | s :: rest =>
    if perItemEligible s then
      let out := armTimers (next + 1) rest
      ({ s with updateTimers := s.updateTimers ++ [next] } :: out.1,
       (next, ⟨perItemPeriod s, .perItemTick s.id⟩) :: out.2.1, out.2.2)
    else
      let out := armTimers next rest
      (s :: out.1, out.2.1, out.2.2)

/-- `setupIndividualUpdateTimers` (lines 69–110): clear all tracked timers,
then arm one per eligible record. -/
def setupIndividualUpdateTimers (st : AppState) : AppState :=
  let st1 := clearIndividualUpdateTimers st
  let out := armTimers st1.nextHandle st1.subs
  { st1 with subs := out.1, timers := st1.timers ++ out.2.1, nextHandle := out.2.2 }

/-- The record-removal filter shared by `deleteSubscription` (line 207). -/
def deleteFilter (subs : List Subscription) (subId : String) : List Subscription :=
  subs.filter (fun s => !(s.id == subId))

/-- `deleteSubscription` (lines 206–212): filter the record out; if the
current page became empty and is past page 1, decrement it. The live timer
set is NOT touched. -/
def deleteSubscription (st : AppState) (subId : String) : AppState :=
  let subs' := deleteFilter st.subs subId
  { st with
    subs := subs'
    page := if (paginatedSubscriptions st.page subs').isEmpty && 1 < st.page
            then st.page - 1 else st.page }

/-- `deleteAllSubscriptions` (lines 214–218): empty the collection, reset
the page. The live timer set is NOT touched. -/
def deleteAllSubscriptions (st : AppState) : AppState :=
  { st with subs := [], page := 1 }

/-! ## Operation traces over the collection

A uniform step semantics for the exported mutators, used to state
trace-level invariants. Each operation carries the oracle(s) its run may
consult; its step returns the resulting collection together with the
network events the run emitted. -/

/-- One exported operation of the composable. -/
inductive Op where
  | init (uuidGen : Nat → String) (raws : List RawSubscription)
  | add (fetch : String → FetchResult) (sub : Subscription)
  | addBulk (batch : List String → BatchOutcome) (fetch : String → FetchResult)
      (newSubs : List Subscription)
  | update (fetch : String → FetchResult) (sub : Subscription)
  | del (subId : String)
  | delAll
  | refreshSingle (fetch : String → FetchResult) (subId : String) (isInitialLoad : Bool)
  | globalTickOp (batch : List String → BatchOutcome)
  | perItemTickOp (batch : List String → BatchOutcome) (subId : String)

/-- Events of a batch-driven run, in emission order. -/
def batchRunEvents (r : BatchRunResult) : List Ev :=
  (r.batchCalled.toList.map Ev.batchCall) ++ r.singleFetches.map Ev.singleFetch

/-- The effect of one operation on the collection, with its network events.
`init` performs no network call at all (the per-record refresh loop at
line 134 is commented out in the source). `add` (lines 187–192) unshifts
the record then fires `handleUpdateNodeCount(sub.id)`. -/
def stepOp (op : Op) (subs : List Subscription) : List Subscription × List Ev :=
  match op with
  | .init g raws => (initializeSubscriptions g raws, [])
  | .add f sub =>
    let r := handleUpdateNodeCount f (sub :: subs) sub.id false
    (r.post, r.fetched.toList.map Ev.singleFetch)
  | .addBulk b f newSubs =>
    let r := addSubscriptionsFromBulk b f subs newSubs
    (r.subs, batchRunEvents r)
  | .update f sub =>
    let r := updateSubscription f subs sub
    (r.subs, r.fetched.toList.map Ev.singleFetch)
  | .del subId => (deleteFilter subs subId, [])
  | .delAll => ([], [])
  | .refreshSingle f subId isInitialLoad =>
    let r := handleUpdateNodeCount f subs subId isInitialLoad
    (r.post, r.fetched.toList.map Ev.singleFetch)
  | .globalTickOp b =>
    let r := globalAutoUpdateTick b subs
    (r.subs, batchRunEvents r)
  | .perItemTickOp b subId => ((individualUpdateTick b subs subId).1, [Ev.batchCall [subId]])

/-- Run a sequence of operations (collection component only). -/
def runOps (ops : List Op) (subs : List Subscription) : List Subscription :=
  ops.foldl (fun s op => (stepOp op s).1) subs

/-! ## Sample data for concrete witnesses -/

/-- Build a record with the given fields; `isUpdating := false`,
`exclude := ""`, `updateTimers := []`. -/
def mkSub (id name url : String) (enabled : Bool) (nodeCount : Int)
    (ui : Option UserInfo) (interval : Option Int) : Subscription :=
  ⟨id, name, url, enabled, nodeCount, false, ui, "", interval, []⟩

/-- Enabled HTTP record with quota `{1, 2, 10}` and a 1-minute interval. -/
def subA : Subscription := mkSub "a" "A" "http://a" true 7 (some ⟨1, 2, 10⟩) (some 1)

/-- Disabled record with quota (must not contribute to the aggregate). -/
def subDisabled : Subscription := mkSub "d" "D" "http://d" false 3 (some ⟨1, 1, 100⟩) none

/-- Enabled record whose quota has `total = 0` (must not contribute). -/
def subZeroTotal : Subscription := mkSub "z" "Z" "http://z" true 3 (some ⟨5, 5, 0⟩) none

/-- Enabled record with a non-HTTP url (inert for refresh). -/
def subManual : Subscription := mkSub "m" "M" "ss://m" true 3 none none

/-- Modelled from the spec's words, for refinement comparison with the
source-translated `totalRemainingTraffic`: "sum over enabled records with
`userInfo.total>0` of `max(0, total - (upload+download))`". -/
def specAggregateRemainingQuota (subs : List Subscription) : Int :=
  ((subs.filter (fun s =>
      s.enabled &&
        match s.userInfo with
        | some ui => decide (0 < ui.total)
        | none => false)).map
    (fun s =>
      match s.userInfo with
      | some ui => max 0 (ui.total - (ui.upload + ui.download))
      | none => 0)).sum

/-- A raw input record with every optional field missing. -/
def rawAllMissing : RawSubscription :=
  ⟨"", "N", "http://n", none, none, none, "", none, []⟩

/-- Erase the one field batch-result application may write. Two records
with equal `eraseNodeCount` images agree on every field except possibly
`nodeCount`. -/
def eraseNodeCount (s : Subscription) : Subscription := { s with nodeCount := 0 }

/-- Sequential composition of single-item refreshes: each call runs on the
state the previous one produced (the degradation loop awaits each call). -/
def refreshFold (fetch : String → FetchResult) (subs : List Subscription)
    (ids : List String) : List Subscription :=
  ids.foldl (fun s id => (handleUpdateNodeCount fetch s id false).post) subs

/-- No two records share an identifier. -/
def UniqueIds (subs : List Subscription) : Prop :=
  (subs.map (fun s => s.id)).Nodup

/-- Every record's identifier is non-empty. -/
def IdsNonempty (subs : List Subscription) : Prop :=
  ∀ id ∈ subs.map (fun s => s.id), id ≠ ""

/-- Freshness side conditions under which an operation preserves identifier
uniqueness. The source never checks these itself: they hold when ids come
from `crypto.randomUUID()` or are otherwise chosen fresh by the caller. -/
def opOK : Op → List Subscription → Prop
  | .init g raws, _ =>
    UniqueIds (initializeSubscriptions g raws) ∧ IdsNonempty (initializeSubscriptions g raws)
  | .add _ sub, subs => sub.id ≠ "" ∧ ∀ s ∈ subs, s.id ≠ sub.id
  | .addBulk _ _ newSubs, subs =>
    (newSubs.map (fun s => s.id)).Nodup ∧ (∀ n ∈ newSubs, n.id ≠ "") ∧
      (∀ n ∈ newSubs, ∀ s ∈ subs, s.id ≠ n.id)
  | _, _ => True

/-- The side conditions hold at every step of a trace. -/
def okTrace : List Op → List Subscription → Prop
  | [], _ => True
  | op :: rest, subs => opOK op subs ∧ okTrace rest (stepOp op subs).1

/-- A raw input record that already carries the id `"a"`. -/
def rawIdA : RawSubscription := ⟨"a", "A", "http://a", none, none, none, "", none, []⟩

/-! ## Helper lemmas about `updateFirst`, `firstIdxOf` and `find?` -/

theorem updateFirst_map {g : Subscription → α} {p : Subscription → Bool}
    {f : Subscription → Subscription} (hf : ∀ s, g (f s) = g s) :
    ∀ l : List Subscription, (updateFirst p f l).map g = l.map g := by
  intro l
  induction l with
  | nil => rfl
  | cons s rest ih =>
    by_cases hp : p s
    · simp [updateFirst, hp, hf]
    · simp [updateFirst, hp, ih]

theorem updateFirst_id_of_not_mem {p : Subscription → Bool} {f : Subscription → Subscription}
    {l : List Subscription} (h : ∀ s ∈ l, p s = false) : updateFirst p f l = l := by
  induction l with
  | nil => rfl
  | cons s rest ih =>
    have hs : p s = false := h s (by simp)
    simp only [updateFirst, hs, Bool.false_eq_true, if_false, List.cons.injEq, true_and]
    exact ih fun t ht => h t (by simp [ht])

theorem updateFirst_replace_map_id {id0 : String} {u : Subscription}
    (hu : u.id = id0) :
    ∀ l : List Subscription,
      (updateFirst (fun s => s.id == id0) (fun _ => u) l).map (fun s => s.id) =
        l.map (fun s => s.id) := by
  intro l
  induction l with
  | nil => rfl
  | cons s rest ih =>
    by_cases hp : s.id = id0
    · simp [updateFirst, hp, hu]
    · simp only [updateFirst, beq_iff_eq, hp, if_false, List.map_cons, ih]

theorem find?_updateFirst {p : Subscription → Bool} {f : Subscription → Subscription}
    (hf : ∀ s, p (f s) = p s) :
    ∀ l : List Subscription, (updateFirst p f l).find? p = (l.find? p).map f := by
  intro l
  induction l with
  | nil => rfl
  | cons s rest ih =>
    by_cases hp : p s
    · simp [updateFirst, hp, List.find?, hf]
    · simp only [updateFirst, hp, Bool.false_eq_true, if_false]
      simp [List.find?, hp, ih]

theorem firstIdxOf_updateFirst {id' : String} {p : Subscription → Bool}
    {f : Subscription → Subscription} (hf : ∀ s, (f s).id = s.id) :
    ∀ l : List Subscription, firstIdxOf id' (updateFirst p f l) = firstIdxOf id' l := by
  intro l
  induction l with
  | nil => rfl
  | cons s rest ih =>
    by_cases hp : p s
    · simp [updateFirst, hp, firstIdxOf, hf]
    · simp [updateFirst, hp, firstIdxOf, ih]

theorem firstIdxOf_getElem? {id : String} :
    ∀ {l : List Subscription} {i : Nat}, firstIdxOf id l = some i →
      ∃ s, l[i]? = some s ∧ s.id = id := by
  intro l
  induction l with
  | nil => intro i h; simp [firstIdxOf] at h
  | cons s rest ih =>
    intro i h
    by_cases hs : s.id = id
    · simp only [firstIdxOf, hs, if_true, Option.some.injEq] at h
      subst h; exact ⟨s, by simp, hs⟩
    · simp only [firstIdxOf, hs, if_false] at h
      match hrest : firstIdxOf id rest with
      | none => rw [hrest] at h; simp at h
      | some j =>
        rw [hrest] at h
        simp at h
        obtain ⟨t, ht, htid⟩ := ih hrest
        exact ⟨t, by simpa [← h] using ht, htid⟩

theorem updateFirst_getElem?_ne {id : String} {f : Subscription → Subscription}
    {i : Nat} :
    ∀ {l : List Subscription}, firstIdxOf id l ≠ some i →
      (updateFirst (fun s => s.id == id) f l)[i]? = l[i]? := by
  intro l
  induction l generalizing i with
  | nil => intro _; rfl
  | cons s rest ih =>
    intro h
    by_cases hs : s.id = id
    · have hi : i ≠ 0 := by
        intro h0; exact h (by simp [firstIdxOf, hs, h0])
      obtain ⟨j, rfl⟩ := Nat.exists_eq_succ_of_ne_zero hi
      simp [updateFirst, hs]
    · simp only [firstIdxOf, hs, if_false] at h
      match i with
      | 0 => simp [updateFirst, hs]
      | j + 1 =>
        have hj : firstIdxOf id rest ≠ some j := by
          intro hr; exact h (by simp [hr])
        simp only [updateFirst, beq_iff_eq, hs, if_false]
        simpa using ih hj

theorem updateFirst_getElem?_eq {id : String} {f : Subscription → Subscription} {i : Nat} :
    ∀ {l : List Subscription}, firstIdxOf id l = some i →
      ∃ s, l[i]? = some s ∧ s.id = id ∧
        (updateFirst (fun s => s.id == id) f l)[i]? = some (f s) := by
  intro l
  induction l generalizing i with
  | nil => intro h; simp [firstIdxOf] at h
  | cons s rest ih =>
    intro h
    by_cases hs : s.id = id
    · simp only [firstIdxOf, hs, if_true, Option.some.injEq] at h
      subst h
      exact ⟨s, by simp, hs, by simp [updateFirst, hs]⟩
    · simp only [firstIdxOf, hs, if_false] at h
      match hrest : firstIdxOf id rest with
      | none => rw [hrest] at h; simp at h
      | some j =>
        rw [hrest] at h
        simp at h
        obtain ⟨t, ht, htid, ht'⟩ := ih hrest
        refine ⟨t, ?_, htid, ?_⟩
        · simpa [← h] using ht
        · simp only [updateFirst, beq_iff_eq, hs, if_false, ← h]
          simpa using ht'

/-! ## C7: derived views -/

theorem totalRemainingTraffic_foldl (l : List Subscription) :
    ∀ a : Int,
      l.foldl
        (fun acc sub =>
          if sub.enabled then
            match sub.userInfo with
            | some ui =>
              if 0 < ui.total then acc + max 0 (ui.total - (ui.upload + ui.download)) else acc
            | none => acc
          else acc)
        a = a + specAggregateRemainingQuota l := by
  induction l with
  | nil => intro a; simp [specAggregateRemainingQuota]
  | cons s rest ih =>
    intro a
    match he : s.enabled, hui : s.userInfo with
    | false, _ =>
      simp only [List.foldl_cons, he, Bool.false_eq_true, if_false]
      rw [ih]
      simp [specAggregateRemainingQuota, he]
    | true, none =>
      simp only [List.foldl_cons, he, if_true, hui]
      rw [ih]
      simp [specAggregateRemainingQuota, he, hui]
    | true, some ui =>
      by_cases ht : 0 < ui.total
      · have hs : specAggregateRemainingQuota (s :: rest) =
            max 0 (ui.total - (ui.upload + ui.download)) + specAggregateRemainingQuota rest := by
          simp [specAggregateRemainingQuota, List.filter_cons, he, hui, ht]
        simp only [List.foldl_cons, he, if_true, hui, ht, if_true]
        rw [ih, hs]
        ring
      · simp only [List.foldl_cons, he, if_true, hui, ht, if_false]
        rw [ih]
        simp [specAggregateRemainingQuota, he, hui, ht]

/-- C7: the derived views are pure functions of the collection:
`subsTotalPages` is the ceiling of `count / 6`; the paginated slice is
empty beyond the last page; and `totalRemainingTraffic` equals the spec's
aggregate (sum over exactly the enabled records with present quota and
`total > 0` of `max 0 (total - (upload+download))`), so disabled records
and records with `total ≤ 0` contribute nothing and no record contributes
a negative amount. -/
theorem spec_C7_derived_views (subs : List Subscription) (p : Nat)
    (hp : subsTotalPages subs < p) :
    subsTotalPages subs = subs.length ⌈/⌉ 6 ∧
    paginatedSubscriptions p subs = [] ∧
    totalRemainingTraffic subs = specAggregateRemainingQuota subs := by
  refine ⟨?_, ?_, ?_⟩
  · rw [Nat.ceilDiv_eq_add_pred_div, subsTotalPages]
    norm_num
  · have hlen : subs.length ≤ (p - 1) * subsItemsPerPage := by
      have h6 : subsItemsPerPage = 6 := rfl
      simp only [subsTotalPages] at hp
      rw [h6]
      omega
    simp only [paginatedSubscriptions]
    rw [List.drop_eq_nil_of_le hlen]
    rfl
  · simpa [totalRemainingTraffic] using totalRemainingTraffic_foldl subs 0

/-- Witness for C7 at a concrete collection and page. -/
theorem spec_C7_derived_views_witness :
    subsTotalPages [subA, subDisabled, subZeroTotal, subManual] <
        2 ∧
      subsTotalPages [subA, subDisabled, subZeroTotal, subManual] =
          [subA, subDisabled, subZeroTotal, subManual].length ⌈/⌉ 6 ∧
        paginatedSubscriptions 2 [subA, subDisabled, subZeroTotal, subManual] = [] ∧
          totalRemainingTraffic [subA, subDisabled, subZeroTotal, subManual] =
            specAggregateRemainingQuota [subA, subDisabled, subZeroTotal, subManual] :=
  ⟨by decide, spec_C7_derived_views [subA, subDisabled, subZeroTotal, subManual] 2 (by decide)⟩

/-! ## C5: initialization -/

theorem initFrom_length (g : Nat → String) :
    ∀ (k : Nat) (l : List RawSubscription), (initFrom g k l).length = l.length := by
  intro k l
  induction l generalizing k with
  | nil => rfl
  | cons raw rest ih => simp [initFrom, ih]

theorem initFrom_getElem? (g : Nat → String) :
    ∀ (l : List RawSubscription) (k i : Nat),
      (initFrom g k l)[i]? = (l[i]?).map (fun raw => normalizeSub (g (k + i)) raw) := by
  intro l
  induction l with
  | nil => intro k i; simp [initFrom]
  | cons raw rest ih =>
    intro k i
    match i with
    | 0 => simp [initFrom]
    | j + 1 =>
      simp only [initFrom, List.getElem?_cons_succ, ih (k + 1) j]
      have : k + 1 + j = k + (j + 1) := by omega
      rw [this]

/-- C5: `initialize(rawList)` replaces the entire collection (whatever it
was) with one normalized record per input element, performing no network
call; every missing optional field receives its documented default
(`enabled=true`, `nodeCount=0`, `isUpdating=false`, `userInfo=null`,
`exclude=''`, `updateInterval=null`, fresh identifier when the input has
none). -/
theorem spec_C5_initialize (g : Nat → String) (raws : List RawSubscription)
    (i : Nat) (raw : RawSubscription) (hi : raws[i]? = some raw) :
    (∀ subs0, stepOp (.init g raws) subs0 = (initializeSubscriptions g raws, [])) ∧
    (initializeSubscriptions g raws).length = raws.length ∧
    ∃ out, (initializeSubscriptions g raws)[i]? = some out ∧
      out.isUpdating = false ∧
      (raw.enabled = none → out.enabled = true) ∧
      (raw.nodeCount = none → out.nodeCount = 0) ∧
      (raw.userInfo = none → out.userInfo = none) ∧
      (raw.exclude = "" → out.exclude = "") ∧
      (raw.updateInterval = none → out.updateInterval = none) ∧
      (raw.id = "" → out.id = g i) ∧
      (raw.id ≠ "" → out.id = raw.id) ∧
      out = normalizeSub (g i) raw := by
  refine ⟨fun subs0 => rfl, initFrom_length g 0 raws, normalizeSub (g i) raw, ?_,
    rfl, ?_, ?_, ?_, ?_, ?_, ?_, ?_, rfl⟩
  · rw [initializeSubscriptions, initFrom_getElem? g raws 0 i, hi]
    simp
  · intro h; simp [normalizeSub, h]
  · intro h; simp [normalizeSub, h]
  · intro h; simp [normalizeSub, h]
  · intro h; simp [normalizeSub, h]
  · intro h; simp [normalizeSub, h, normalizeInterval]
  · intro h; simp [normalizeSub, h]
  · intro h; simp [normalizeSub, h]

/-- Witness for C5 at a concrete one-element input list. -/
theorem spec_C5_initialize_witness :
    [rawAllMissing][0]? = some rawAllMissing ∧
      ((∀ subs0,
          stepOp (.init (fun n => "uuid-" ++ toString n) [rawAllMissing]) subs0 =
            (initializeSubscriptions (fun n => "uuid-" ++ toString n) [rawAllMissing], [])) ∧
        (initializeSubscriptions (fun n => "uuid-" ++ toString n) [rawAllMissing]).length =
            [rawAllMissing].length ∧
          ∃ out,
            (initializeSubscriptions (fun n => "uuid-" ++ toString n) [rawAllMissing])[0]? =
                some out ∧
              out.isUpdating = false ∧
                (rawAllMissing.enabled = none → out.enabled = true) ∧
                  (rawAllMissing.nodeCount = none → out.nodeCount = 0) ∧
                    (rawAllMissing.userInfo = none → out.userInfo = none) ∧
                      (rawAllMissing.exclude = "" → out.exclude = "") ∧
                        (rawAllMissing.updateInterval = none → out.updateInterval = none) ∧
                          (rawAllMissing.id = "" → out.id = (fun n => "uuid-" ++ toString n) 0) ∧
                            (rawAllMissing.id ≠ "" → out.id = rawAllMissing.id) ∧
                              out = normalizeSub ((fun n => "uuid-" ++ toString n) 0)
                                  rawAllMissing) :=
  ⟨rfl, spec_C5_initialize (fun n => "uuid-" ++ toString n) [rawAllMissing] 0 rawAllMissing rfl⟩

/-! ## C4: single-item refresher -/

/-- C4: for every outcome of the remote fetch — `.ok` or a thrown error
(`.err`, caught by the `try/catch/finally`; the function is total over
both, so nothing escapes to the caller — `refresh(id, isInitialLoad)`:
is a no-op when the record is missing or its URL is not HTTP(S); unless
`isInitialLoad` it sets `isUpdating := true` before the fetch; on every
exit path the record's `isUpdating` is `false` afterwards; and on fetch
failure it does not mark dirty and changes nothing besides `isUpdating`. -/
theorem spec_C4_single_item_refresher (fetch : String → FetchResult)
    (subs : List Subscription) (subId : String) (isInitialLoad : Bool) :
    (subs.find? (fun s => s.id == subId) = none →
      handleUpdateNodeCount fetch subs subId isInitialLoad = ⟨subs, subs, none, false⟩) ∧
    (∀ s0, subs.find? (fun s => s.id == subId) = some s0 → isHttpUrl s0.url = false →
      handleUpdateNodeCount fetch subs subId isInitialLoad = ⟨subs, subs, none, false⟩) ∧
    (∀ s0, subs.find? (fun s => s.id == subId) = some s0 → isHttpUrl s0.url = true →
      (isInitialLoad = false →
        ∃ s1, (handleUpdateNodeCount fetch subs subId isInitialLoad).pre.find?
            (fun s => s.id == subId) = some s1 ∧ s1.isUpdating = true) ∧
      (∃ s2, (handleUpdateNodeCount fetch subs subId isInitialLoad).post.find?
            (fun s => s.id == subId) = some s2 ∧ s2.isUpdating = false) ∧
      (fetch s0.url = .err →
        (handleUpdateNodeCount fetch subs subId isInitialLoad).markedDirty = false ∧
        (handleUpdateNodeCount fetch subs subId isInitialLoad).post.map
            (fun s => { s with isUpdating := false }) =
          subs.map (fun s => { s with isUpdating := false }))) := by
  refine ⟨?_, ?_, ?_⟩
  · intro hfind
    simp [handleUpdateNodeCount, hfind]
  · intro s0 hfind hurl
    simp [handleUpdateNodeCount, hfind, hurl]
  · intro s0 hfind hurl
    have hpre : (handleUpdateNodeCount fetch subs subId isInitialLoad).pre =
        (if isInitialLoad then subs
          else updateFirst (fun s => s.id == subId)
            (fun s => { s with isUpdating := true }) subs) := by
      simp only [handleUpdateNodeCount, hfind, hurl, if_true]
      match fetch s0.url with
      | .ok data => rfl
      | .err => rfl
    have hfind_pre : (handleUpdateNodeCount fetch subs subId isInitialLoad).pre.find?
        (fun s => s.id == subId) =
          (if isInitialLoad then some s0 else some { s0 with isUpdating := true }) := by
      rw [hpre]
      match isInitialLoad with
      | true => simpa using hfind
      | false =>
        simp only [if_false, Bool.false_eq_true]
        rw [find?_updateFirst (p := fun s => s.id == subId) (f := fun s => { s with isUpdating := true }) (fun s => rfl),
          hfind]
        rfl
    refine ⟨?_, ?_, ?_⟩
    · intro hinit
      subst hinit
      exact ⟨{ s0 with isUpdating := true }, by simpa using hfind_pre, rfl⟩
    · match hf : fetch s0.url with
      | .ok data =>
        have hpost : (handleUpdateNodeCount fetch subs subId isInitialLoad).post =
            updateFirst (fun s => s.id == subId)
              (fun s => { s with nodeCount := data.count.getD 0, userInfo := data.userInfo,
                                 isUpdating := false })
              (handleUpdateNodeCount fetch subs subId isInitialLoad).pre := by
          simp only [handleUpdateNodeCount, hfind, hurl, if_true, hf]
        rw [hpost,
          find?_updateFirst (p := fun s => s.id == subId)
            (f := fun s => { s with nodeCount := data.count.getD 0, userInfo := data.userInfo,
                                    isUpdating := false })
            (fun s => rfl),
          hfind_pre]
        cases isInitialLoad <;> exact ⟨_, rfl, rfl⟩
      | .err =>
        have hpost : (handleUpdateNodeCount fetch subs subId isInitialLoad).post =
            updateFirst (fun s => s.id == subId) (fun s => { s with isUpdating := false })
              (handleUpdateNodeCount fetch subs subId isInitialLoad).pre := by
          simp only [handleUpdateNodeCount, hfind, hurl, if_true, hf]
        rw [hpost,
          find?_updateFirst (p := fun s => s.id == subId) (f := fun s => { s with isUpdating := false }) (fun s => rfl),
          hfind_pre]
        cases isInitialLoad <;> exact ⟨_, rfl, rfl⟩
    · intro hf
      have hdirty : (handleUpdateNodeCount fetch subs subId isInitialLoad).markedDirty
          = false := by
        simp [handleUpdateNodeCount, hfind, hurl, hf]
      refine ⟨hdirty, ?_⟩
      have hpost : (handleUpdateNodeCount fetch subs subId isInitialLoad).post =
          updateFirst (fun s => s.id == subId) (fun s => { s with isUpdating := false })
            (handleUpdateNodeCount fetch subs subId isInitialLoad).pre := by
        simp only [handleUpdateNodeCount, hfind, hurl, if_true, hf]
      rw [hpost,
        updateFirst_map (g := fun s => ({ s with isUpdating := false } : Subscription))
          (p := fun s => s.id == subId) (f := fun s => { s with isUpdating := false })
          (fun s => rfl), hpre]
      cases isInitialLoad
      · simp only [Bool.false_eq_true, if_false]
        rw [updateFirst_map (g := fun s => ({ s with isUpdating := false } : Subscription))
          (p := fun s => s.id == subId) (f := fun s => { s with isUpdating := true })
          (fun s => rfl)]
      · rfl

/-- Witness for C4: both a missing record, a non-HTTP record and a present
HTTP record with a failing fetch, on one concrete collection. -/
theorem spec_C4_single_item_refresher_witness :
    [subA, subManual].find? (fun s => s.id == "a") = some subA ∧
      isHttpUrl subA.url = true ∧ (fun _ => FetchResult.err) subA.url = .err ∧
      ((∃ s1, (handleUpdateNodeCount (fun _ => .err) [subA, subManual] "a" false).pre.find?
            (fun s => s.id == "a") = some s1 ∧ s1.isUpdating = true) ∧
        (∃ s2, (handleUpdateNodeCount (fun _ => .err) [subA, subManual] "a" false).post.find?
            (fun s => s.id == "a") = some s2 ∧ s2.isUpdating = false) ∧
        (handleUpdateNodeCount (fun _ => .err) [subA, subManual] "a" false).markedDirty
            = false ∧
        (handleUpdateNodeCount (fun _ => .err) [subA, subManual] "a" false).post.map
            (fun s => { s with isUpdating := false }) =
          [subA, subManual].map (fun s => { s with isUpdating := false })) := by
  have h := (spec_C4_single_item_refresher (fun _ => .err) [subA, subManual] "a" false).2.2
      subA (by decide) (by decide)
  refine ⟨by decide, by decide, rfl, h.1 rfl, h.2.1, (h.2.2 rfl).1, (h.2.2 rfl).2⟩

/-! ## C3 / C10: applying batch results -/

theorem applyBatchResult_map_erase (subs : List Subscription) (r : BatchItemResult) :
    (applyBatchResult subs r).map eraseNodeCount = subs.map eraseNodeCount := by
  by_cases hs : r.success
  · simp only [applyBatchResult, hs, if_true]
    exact updateFirst_map (g := eraseNodeCount) (p := fun s => s.id == r.id)
      (f := fun s => { s with nodeCount := r.nodeCount }) (fun s => rfl) subs
  · simp [applyBatchResult, hs]

theorem applyBatchResults_map_erase (results : List BatchItemResult) :
    ∀ subs : List Subscription,
      (applyBatchResults subs results).map eraseNodeCount = subs.map eraseNodeCount := by
  induction results with
  | nil => intro subs; rfl
  | cons r rest ih =>
    intro subs
    show (applyBatchResults (applyBatchResult subs r) rest).map eraseNodeCount = _
    rw [ih, applyBatchResult_map_erase]

theorem firstIdxOf_applyBatchResult (id : String) (subs : List Subscription)
    (r : BatchItemResult) :
    firstIdxOf id (applyBatchResult subs r) = firstIdxOf id subs := by
  by_cases hs : r.success
  · simp only [applyBatchResult, hs, if_true]
    exact firstIdxOf_updateFirst (p := fun s => s.id == r.id)
      (f := fun s => { s with nodeCount := r.nodeCount }) (fun s => rfl) subs
  · simp [applyBatchResult, hs]

theorem firstIdxOf_applyBatchResults (id : String) (results : List BatchItemResult) :
    ∀ subs : List Subscription,
      firstIdxOf id (applyBatchResults subs results) = firstIdxOf id subs := by
  induction results with
  | nil => intro subs; rfl
  | cons r rest ih =>
    intro subs
    show firstIdxOf id (applyBatchResults (applyBatchResult subs r) rest) = _
    rw [ih, firstIdxOf_applyBatchResult]

theorem applyBatchResults_getElem?_untouched (results : List BatchItemResult) :
    ∀ (subs : List Subscription) (i : Nat),
      (∀ r ∈ results, r.success = true → firstIdxOf r.id subs ≠ some i) →
      (applyBatchResults subs results)[i]? = subs[i]? := by
  induction results with
  | nil => intro subs i _; rfl
  | cons r rest ih =>
    intro subs i h
    show (applyBatchResults (applyBatchResult subs r) rest)[i]? = _
    have hstep : (applyBatchResult subs r)[i]? = subs[i]? := by
      by_cases hs : r.success
      · simp only [applyBatchResult, hs, if_true]
        exact updateFirst_getElem?_ne (h r (by simp) hs)
      · simp [applyBatchResult, hs]
    rw [← hstep]
    exact ih (applyBatchResult subs r) i fun r' hr' hs' => by
      rw [firstIdxOf_applyBatchResult]
      exact h r' (by simp [hr']) hs'

theorem eraseNodeCount_congr {s s' : Subscription} (h : eraseNodeCount s = eraseNodeCount s')
    (nc : Int) : ({ s with nodeCount := nc } : Subscription) = { s' with nodeCount := nc } := by
  cases s; cases s'
  simp only [eraseNodeCount, Subscription.mk.injEq] at h ⊢
  exact h

theorem applyBatchResults_getElem?_hit (results : List BatchItemResult) :
    ∀ (subs : List Subscription) (r : BatchItemResult), r ∈ results → r.success = true →
      (results.map (fun r => r.id)).Nodup →
      ∀ i : Nat, firstIdxOf r.id subs = some i →
        ∃ s, subs[i]? = some s ∧
          (applyBatchResults subs results)[i]? = some { s with nodeCount := r.nodeCount } := by
  induction results with
  | nil => intro _ r hmem; exact absurd hmem (List.not_mem_nil r)
  | cons r0 rest ih =>
    intro subs r hmem hs hnd i hidx
    have hnd_rest : (rest.map (fun r => r.id)).Nodup := (List.nodup_cons.mp hnd).2
    rcases List.mem_cons.mp hmem with rfl | hmem_rest
    · -- the hit result is processed first; the fold over `rest` leaves slot `i` alone
      obtain ⟨s, hsub, hsid, hupd⟩ :=
        updateFirst_getElem?_eq (f := fun s => { s with nodeCount := r.nodeCount }) hidx
      refine ⟨s, hsub, ?_⟩
      have hstep : (applyBatchResult subs r)[i]? = some { s with nodeCount := r.nodeCount } := by
        simp only [applyBatchResult, hs, if_true]
        exact hupd
      show (applyBatchResults (applyBatchResult subs r) rest)[i]? = _
      rw [applyBatchResults_getElem?_untouched rest (applyBatchResult subs r) i ?_, hstep]
      intro r' hr' hs' hidx'
      have hne : r'.id ≠ r.id := by
        intro he
        have hmm : r'.id ∈ rest.map (fun r => r.id) :=
          List.mem_map_of_mem (fun r => r.id) hr'
        rw [he] at hmm
        exact (List.nodup_cons.mp hnd).1 hmm
      obtain ⟨t, ht, htid⟩ := firstIdxOf_getElem? hidx'
      have hidx0 : firstIdxOf r.id (applyBatchResult subs r) = some i := by
        rw [firstIdxOf_applyBatchResult]; exact hidx
      obtain ⟨t', ht', htid'⟩ := firstIdxOf_getElem? hidx0
      rw [ht] at ht'
      exact hne (by rw [← htid, Option.some.inj ht', htid'])
    · -- the hit result sits in the tail; transport across the head step
      have hidx' : firstIdxOf r.id (applyBatchResult subs r0) = some i := by
        rw [firstIdxOf_applyBatchResult]; exact hidx
      obtain ⟨s', hs', hres⟩ := ih (applyBatchResult subs r0) r hmem_rest hs hnd_rest i hidx'
      have hframe : (applyBatchResult subs r0)[i]?.map eraseNodeCount =
          subs[i]?.map eraseNodeCount := by
        rw [← List.getElem?_map eraseNodeCount, ← List.getElem?_map eraseNodeCount,
          applyBatchResult_map_erase]
      rw [hs'] at hframe
      match hsub : subs[i]? with
      | none => rw [hsub] at hframe; simp at hframe
      | some s =>
        rw [hsub] at hframe
        simp at hframe
        refine ⟨s, rfl, ?_⟩
        show (applyBatchResults (applyBatchResult subs r0) rest)[i]? = _
        rw [hres, eraseNodeCount_congr hframe r.nodeCount]

/-- C3: when the batch call completes with `success:true`, applying the
per-id results overwrites `nodeCount` of exactly the records first-matched
by a successful result; no other field of any record (in particular
`userInfo`) is ever written; records of failed or unmatched ids are left
entirely unchanged; and neither the global tick nor the bulk path invokes
the single-item refresher in this branch. -/
theorem spec_C3_partial_batch_success (results : List BatchItemResult)
    (subs : List Subscription)
    (hnd : (results.map (fun r => r.id)).Nodup) :
    ((applyBatchResults subs results).map eraseNodeCount = subs.map eraseNodeCount) ∧
    (∀ i : Nat, (∀ r ∈ results, r.success = true → firstIdxOf r.id subs ≠ some i) →
      (applyBatchResults subs results)[i]? = subs[i]?) ∧
    (∀ r ∈ results, r.success = true → ∀ i, firstIdxOf r.id subs = some i →
      ∃ s, subs[i]? = some s ∧
        (applyBatchResults subs results)[i]? = some { s with nodeCount := r.nodeCount }) ∧
    (∀ subs' : List Subscription,
      (globalAutoUpdateTick (fun _ => .completed true results) subs').singleInvocations = [] ∧
      (globalAutoUpdateTick (fun _ => .completed true results) subs').singleFetches = []) ∧
    (∀ (f : String → FetchResult) (subs' newSubs : List Subscription),
      (addSubscriptionsFromBulk (fun _ => .completed true results) f subs'
          newSubs).singleInvocations = [] ∧
      (addSubscriptionsFromBulk (fun _ => .completed true results) f subs'
          newSubs).singleFetches = []) := by
  refine ⟨applyBatchResults_map_erase results subs,
    fun i h => applyBatchResults_getElem?_untouched results subs i h,
    fun r hr hs i hi => applyBatchResults_getElem?_hit results subs r hr hs hnd i hi,
    ?_, ?_⟩
  · intro subs'
    by_cases he : (subs'.filter (fun s => s.enabled && isHttpUrl s.url)).isEmpty
    · simp [globalAutoUpdateTick, he]
    · simp [globalAutoUpdateTick, he]
  · intro f subs' newSubs
    by_cases he : (newSubs.filter (fun s => isHttpUrl s.url)).isEmpty
    · simp [addSubscriptionsFromBulk, he]
    · simp [addSubscriptionsFromBulk, he]

/-- Witness for C3: batch over `[a, m]` with `a` succeeding (count 5) and
`m` failing: only `a`'s nodeCount changes, `userInfo` stays, `m` untouched,
no degradation. -/
theorem spec_C3_partial_batch_success_witness :
    (([⟨"a", true, 5⟩, ⟨"m", false, 9⟩] : List BatchItemResult).map
        (fun r => r.id)).Nodup ∧
      ((applyBatchResults [subA, subManual] [⟨"a", true, 5⟩, ⟨"m", false, 9⟩]).map
            eraseNodeCount = [subA, subManual].map eraseNodeCount ∧
        (∀ i : Nat,
          (∀ r ∈ ([⟨"a", true, 5⟩, ⟨"m", false, 9⟩] : List BatchItemResult),
            r.success = true → firstIdxOf r.id [subA, subManual] ≠ some i) →
          (applyBatchResults [subA, subManual] [⟨"a", true, 5⟩, ⟨"m", false, 9⟩])[i]? =
            [subA, subManual][i]?) ∧
        (∀ r ∈ ([⟨"a", true, 5⟩, ⟨"m", false, 9⟩] : List BatchItemResult),
          r.success = true → ∀ i, firstIdxOf r.id [subA, subManual] = some i →
          ∃ s, [subA, subManual][i]? = some s ∧
            (applyBatchResults [subA, subManual]
                [⟨"a", true, 5⟩, ⟨"m", false, 9⟩])[i]? =
              some { s with nodeCount := r.nodeCount }) ∧
        (∀ subs' : List Subscription,
          (globalAutoUpdateTick
              (fun _ => .completed true [⟨"a", true, 5⟩, ⟨"m", false, 9⟩])
              subs').singleInvocations = [] ∧
          (globalAutoUpdateTick
              (fun _ => .completed true [⟨"a", true, 5⟩, ⟨"m", false, 9⟩])
              subs').singleFetches = []) ∧
        (∀ (f : String → FetchResult) (subs' newSubs : List Subscription),
          (addSubscriptionsFromBulk
              (fun _ => .completed true [⟨"a", true, 5⟩, ⟨"m", false, 9⟩]) f subs'
              newSubs).singleInvocations = [] ∧
          (addSubscriptionsFromBulk
              (fun _ => .completed true [⟨"a", true, 5⟩, ⟨"m", false, 9⟩]) f subs'
              newSubs).singleFetches = [])) :=
  ⟨by decide,
    spec_C3_partial_batch_success [⟨"a", true, 5⟩, ⟨"m", false, 9⟩] [subA, subManual]
      (by decide)⟩

/-- C10: a per-id batch result whose id matches no record in the collection
is silently skipped — the collection is returned unchanged, an entire
result list acts the same with or without it, and applying batch results
never changes collection membership or order (the id sequence is
preserved). -/
theorem spec_C10_unmatched_batch_result (subs : List Subscription) (r : BatchItemResult)
    (results : List BatchItemResult) (h : ∀ s ∈ subs, s.id ≠ r.id) :
    applyBatchResult subs r = subs ∧
    applyBatchResults subs (r :: results) = applyBatchResults subs results ∧
    (∀ results' : List BatchItemResult,
      (applyBatchResults subs results').map (fun s => s.id) = subs.map (fun s => s.id)) := by
  have hstep : applyBatchResult subs r = subs := by
    by_cases hs : r.success
    · simp only [applyBatchResult, hs, if_true]
      exact updateFirst_id_of_not_mem fun s hs' => by
        simp only [beq_eq_false_iff_ne, ne_eq]
        exact h s hs'
    · simp [applyBatchResult, hs]
  refine ⟨hstep, ?_, ?_⟩
  · show applyBatchResults (applyBatchResult subs r) results = _
    rw [hstep]
  · intro results'
    have := applyBatchResults_map_erase results' subs
    calc (applyBatchResults subs results').map (fun s => s.id)
        = ((applyBatchResults subs results').map eraseNodeCount).map (fun s => s.id) := by
          simp [eraseNodeCount]
      _ = (subs.map eraseNodeCount).map (fun s => s.id) := by rw [this]
      _ = subs.map (fun s => s.id) := by simp [eraseNodeCount]

/-- Witness for C10: a result for the removed id `"gone"` on a collection
that no longer holds it. -/
theorem spec_C10_unmatched_batch_result_witness :
    (∀ s ∈ [subA, subManual], s.id ≠ "gone") ∧
      (applyBatchResult [subA, subManual] ⟨"gone", true, 11⟩ = [subA, subManual] ∧
        applyBatchResults [subA, subManual] (⟨"gone", true, 11⟩ :: [⟨"a", true, 5⟩]) =
            applyBatchResults [subA, subManual] [⟨"a", true, 5⟩] ∧
          ∀ results' : List BatchItemResult,
            (applyBatchResults [subA, subManual] results').map (fun s => s.id) =
              [subA, subManual].map (fun s => s.id)) :=
  ⟨by decide,
    spec_C10_unmatched_batch_result [subA, subManual] ⟨"gone", true, 11⟩ [⟨"a", true, 5⟩]
      (by decide)⟩

/-! ## C2: degradation on batch failure -/

theorem degradeSequentially_invocations (fetch : String → FetchResult) :
    ∀ (toUpdate : List Subscription) (subs : List Subscription) (l1 l2 : List String),
      (toUpdate.foldl
          (fun acc sub =>
            let r := handleUpdateNodeCount fetch acc.1 sub.id false
            (r.post, acc.2.1 ++ [sub.id], acc.2.2 ++ r.fetched.toList))
          (subs, l1, l2)).2.1 = l1 ++ toUpdate.map (fun s => s.id) := by
  intro toUpdate
  induction toUpdate with
  | nil => intro subs l1 l2; simp
  | cons sub rest ih =>
    intro subs l1 l2
    simp only [List.foldl_cons, List.map_cons]
    rw [ih]
    simp

theorem degradeSequentially_state (fetch : String → FetchResult) :
    ∀ (toUpdate : List Subscription) (subs : List Subscription) (l1 l2 : List String),
      (toUpdate.foldl
          (fun acc sub =>
            let r := handleUpdateNodeCount fetch acc.1 sub.id false
            (r.post, acc.2.1 ++ [sub.id], acc.2.2 ++ r.fetched.toList))
          (subs, l1, l2)).1 = refreshFold fetch subs (toUpdate.map (fun s => s.id)) := by
  intro toUpdate
  induction toUpdate with
  | nil => intro subs l1 l2; rfl
  | cons sub rest ih =>
    intro subs l1 l2
    simp only [List.foldl_cons]
    rw [ih]
    rfl

/-- Counterexample to C2 as stated: the global scheduler's tick is a batch
refresh context, yet when its `batchUpdateNodes` call reports overall
failure it performs no single-item refresh at all (the source only runs
`console.error`), although one id was submitted. The same holds when the
call throws. -/
theorem spec_C2_counterexample :
    (globalAutoUpdateTick (fun _ => .completed false []) [subA]).batchCalled = some ["a"] ∧
    (globalAutoUpdateTick (fun _ => .completed false []) [subA]).singleInvocations = [] ∧
    (globalAutoUpdateTick (fun _ => .completed false []) [subA]).singleFetches = [] ∧
    (globalAutoUpdateTick (fun _ => .threw) [subA]).batchCalled = some ["a"] ∧
    (globalAutoUpdateTick (fun _ => .threw) [subA]).singleInvocations = [] ∧
    (globalAutoUpdateTick (fun _ => .threw) [subA]).singleFetches = [] :=
  ⟨rfl, rfl, rfl, rfl, rfl, rfl⟩

/-- C2 as amended: degradation exists only in the bulk-import path
(`addSubscriptionsFromBulk`). There, when the batch call reports overall
failure or throws, the single-item refresher is invoked exactly once per
submitted id, in submission order, strictly sequentially (the final state
is the left fold of single refreshes). The global scheduler's tick never
degrades: it performs no single-item invocation in any outcome. -/
theorem spec_C2_degradation_amended (batch : List String → BatchOutcome)
    (fetch : String → FetchResult) (subs newSubs : List Subscription) :
    (∀ results,
      batch ((newSubs.filter (fun s => isHttpUrl s.url)).map (fun s => s.id)) =
          .completed false results →
      (addSubscriptionsFromBulk batch fetch subs newSubs).singleInvocations =
          (newSubs.filter (fun s => isHttpUrl s.url)).map (fun s => s.id) ∧
      (addSubscriptionsFromBulk batch fetch subs newSubs).subs =
        refreshFold fetch (newSubs ++ subs)
          ((newSubs.filter (fun s => isHttpUrl s.url)).map (fun s => s.id))) ∧
    (batch ((newSubs.filter (fun s => isHttpUrl s.url)).map (fun s => s.id)) = .threw →
      (addSubscriptionsFromBulk batch fetch subs newSubs).singleInvocations =
          (newSubs.filter (fun s => isHttpUrl s.url)).map (fun s => s.id) ∧
      (addSubscriptionsFromBulk batch fetch subs newSubs).subs =
        refreshFold fetch (newSubs ++ subs)
          ((newSubs.filter (fun s => isHttpUrl s.url)).map (fun s => s.id))) ∧
    (∀ (b : List String → BatchOutcome) (subs' : List Subscription),
      (globalAutoUpdateTick b subs').singleInvocations = [] ∧
      (globalAutoUpdateTick b subs').singleFetches = []) := by
  refine ⟨?_, ?_, ?_⟩
  · intro results hb
    by_cases he : (newSubs.filter (fun s => isHttpUrl s.url)).isEmpty
    · have hnil : newSubs.filter (fun s => isHttpUrl s.url) = [] :=
        List.isEmpty_iff.mp he
      constructor
      · simp [addSubscriptionsFromBulk, he, hnil]
      · simp [addSubscriptionsFromBulk, he, hnil, refreshFold]
    · simp only [addSubscriptionsFromBulk, he, Bool.false_eq_true, if_false, hb]
      exact ⟨degradeSequentially_invocations fetch _ _ [] [],
        degradeSequentially_state fetch _ _ [] []⟩
  · intro hb
    by_cases he : (newSubs.filter (fun s => isHttpUrl s.url)).isEmpty
    · have hnil : newSubs.filter (fun s => isHttpUrl s.url) = [] :=
        List.isEmpty_iff.mp he
      constructor
      · simp [addSubscriptionsFromBulk, he, hnil]
      · simp [addSubscriptionsFromBulk, he, hnil, refreshFold]
    · simp only [addSubscriptionsFromBulk, he, Bool.false_eq_true, if_false, hb]
      exact ⟨degradeSequentially_invocations fetch _ _ [] [],
        degradeSequentially_state fetch _ _ [] []⟩
  · intro b subs'
    by_cases he : (subs'.filter (fun s => s.enabled && isHttpUrl s.url)).isEmpty
    · simp [globalAutoUpdateTick, he]
    · match hb : b ((subs'.filter (fun s => s.enabled && isHttpUrl s.url)).map
          (fun s => s.id)) with
      | .completed true results => simp [globalAutoUpdateTick, he, hb]
      | .completed false results => simp [globalAutoUpdateTick, he, hb]
      | .threw => simp [globalAutoUpdateTick, he, hb]

/-- Witness for the amended C2 at a concrete bulk import of two records
(one HTTP, one inert) whose batch call throws. -/
theorem spec_C2_degradation_amended_witness :
    (fun _ : List String => BatchOutcome.threw)
        (([subA, subManual].filter (fun s => isHttpUrl s.url)).map (fun s => s.id)) =
        .threw ∧
      ((addSubscriptionsFromBulk (fun _ => .threw) (fun _ => .ok ⟨some 4, none⟩) [subDisabled]
            [subA, subManual]).singleInvocations =
          ([subA, subManual].filter (fun s => isHttpUrl s.url)).map (fun s => s.id) ∧
        (addSubscriptionsFromBulk (fun _ => .threw) (fun _ => .ok ⟨some 4, none⟩) [subDisabled]
            [subA, subManual]).subs =
          refreshFold (fun _ => .ok ⟨some 4, none⟩) ([subA, subManual] ++ [subDisabled])
            (([subA, subManual].filter (fun s => isHttpUrl s.url)).map (fun s => s.id))) :=
  ⟨rfl,
    (spec_C2_degradation_amended (fun _ => .threw) (fun _ => .ok ⟨some 4, none⟩) [subDisabled]
        [subA, subManual]).2.1 rfl⟩

/-! ## C1: per-item timers -/

theorem armTimers_spec :
    ∀ (l : List Subscription) (next : Nat), (∀ s ∈ l, s.updateTimers = []) →
      (∀ s' ∈ (armTimers next l).1,
        (perItemEligible s' = true →
          ∃ h, s'.updateTimers = [h] ∧
            (h, (⟨perItemPeriod s', .perItemTick s'.id⟩ : TimerEntry)) ∈
              (armTimers next l).2.1) ∧
        (perItemEligible s' = false → s'.updateTimers = [])) ∧
      (∀ ht ∈ (armTimers next l).2.1,
        ∃ s' ∈ (armTimers next l).1, perItemEligible s' = true ∧
          s'.updateTimers = [ht.1] ∧ ht.2 = ⟨perItemPeriod s', .perItemTick s'.id⟩) ∧
      (∀ ht ∈ (armTimers next l).2.1, next ≤ ht.1 ∧ ht.1 < (armTimers next l).2.2) ∧
      next ≤ (armTimers next l).2.2 ∧
      ((armTimers next l).2.1.map Prod.fst).Nodup := by
  intro l
  induction l with
  | nil =>
    intro next hclean
    refine ⟨?_, ?_, ?_, ?_, ?_⟩ <;> simp [armTimers]
  | cons s rest ih =>
    intro next hclean
    have hcleanr : ∀ t ∈ rest, t.updateTimers = [] :=
      fun t ht => hclean t (List.mem_cons_of_mem s ht)
    have hs0 : s.updateTimers = [] := hclean s (List.mem_cons_self s rest)
    by_cases helig : perItemEligible s
    · obtain ⟨ih1, ih2, ih3, ih4, ih5⟩ := ih (next + 1) hcleanr
      have e1 : (armTimers next (s :: rest)).1 =
          { s with updateTimers := s.updateTimers ++ [next] } ::
            (armTimers (next + 1) rest).1 := by
        simp [armTimers, helig]
      have e2 : (armTimers next (s :: rest)).2.1 =
          (next, (⟨perItemPeriod s, .perItemTick s.id⟩ : TimerEntry)) ::
            (armTimers (next + 1) rest).2.1 := by
        simp [armTimers, helig]
      have e3 : (armTimers next (s :: rest)).2.2 = (armTimers (next + 1) rest).2.2 := by
        simp [armTimers, helig]
      refine ⟨?_, ?_, ?_, ?_, ?_⟩
      · rw [e1]
        intro s' hs'
        rcases List.mem_cons.mp hs' with rfl | hmem
        · refine ⟨fun _ => ⟨next, by simp [hs0], ?_⟩, fun hfalse => ?_⟩
          · rw [e2]
            exact List.mem_cons_self _ _
          · have htrue : perItemEligible
                { s with updateTimers := s.updateTimers ++ [next] } = true := helig
            rw [htrue] at hfalse
            exact absurd hfalse (by simp)
        · obtain ⟨hA, hB⟩ := ih1 s' hmem
          refine ⟨fun he => ?_, hB⟩
          obtain ⟨h, hut, hmem'⟩ := hA he
          refine ⟨h, hut, ?_⟩
          rw [e2]
          exact List.mem_cons_of_mem _ hmem'
      · rw [e2]
        intro ht hht
        rcases List.mem_cons.mp hht with rfl | hmem
        · refine ⟨{ s with updateTimers := s.updateTimers ++ [next] }, ?_, helig, by simp [hs0], rfl⟩
          rw [e1]
          exact List.mem_cons_self _ _
        · obtain ⟨s', hs', he', hut', hent'⟩ := ih2 ht hmem
          refine ⟨s', ?_, he', hut', hent'⟩
          rw [e1]
          exact List.mem_cons_of_mem _ hs'
      · rw [e2, e3]
        intro ht hht
        rcases List.mem_cons.mp hht with rfl | hmem
        · exact ⟨Nat.le_refl next, Nat.lt_of_lt_of_le (Nat.lt_succ_self next) ih4⟩
        · obtain ⟨hlo, hhi⟩ := ih3 ht hmem
          exact ⟨Nat.le_of_succ_le hlo, hhi⟩
      · rw [e3]
        exact Nat.le_of_succ_le ih4
      · rw [e2]
        simp only [List.map_cons, List.nodup_cons]
        refine ⟨?_, ih5⟩
        intro hmem
        obtain ⟨ht, hht, hfst⟩ := List.mem_map.mp hmem
        have := (ih3 ht hht).1
        omega
    · obtain ⟨ih1, ih2, ih3, ih4, ih5⟩ := ih next hcleanr
      have e1 : (armTimers next (s :: rest)).1 = s :: (armTimers next rest).1 := by
        simp [armTimers, helig]
      have e2 : (armTimers next (s :: rest)).2.1 = (armTimers next rest).2.1 := by
        simp [armTimers, helig]
      have e3 : (armTimers next (s :: rest)).2.2 = (armTimers next rest).2.2 := by
        simp [armTimers, helig]
      refine ⟨?_, ?_, ?_, ?_, ?_⟩
      · rw [e1]
        intro s' hs'
        rcases List.mem_cons.mp hs' with rfl | hmem
        · exact ⟨fun he => absurd he (by simpa using helig), fun _ => hs0⟩
        · obtain ⟨hA, hB⟩ := ih1 s' hmem
          refine ⟨fun he => ?_, hB⟩
          obtain ⟨h, hut, hmem'⟩ := hA he
          exact ⟨h, hut, by rw [e2]; exact hmem'⟩
      · rw [e2]
        intro ht hht
        obtain ⟨s', hs', he', hut', hent'⟩ := ih2 ht hht
        refine ⟨s', ?_, he', hut', hent'⟩
        rw [e1]
        exact List.mem_cons_of_mem _ hs'
      · rw [e2, e3]
        exact ih3
      · rw [e3]
        exact ih4
      · rw [e2]
        exact ih5

/-- Counterexample to C1 as stated: after (re)arming, the sole per-item
timer is armed for `subA` with the claimed period, but its tick performs
the batch call `batchUpdateNodes([sub.id])` (lines 76–101), not the
Single-Item Refresher's single-URL fetch: with consistent oracles (the
batch result and the fetch both report 5 nodes, the fetch also reveals
quota), the tick's outcome differs from a single-item refresh — the tick
never writes `userInfo`. -/
theorem spec_C1_counterexample :
    (setupIndividualUpdateTimers ⟨[subA], [], 0, 1⟩).timers =
        [(0, ⟨60000, .perItemTick "a"⟩)] ∧
      (individualUpdateTick (fun _ => .completed true [⟨"a", true, 5⟩])
          (setupIndividualUpdateTimers ⟨[subA], [], 0, 1⟩).subs "a").1 ≠
        (handleUpdateNodeCount (fun _ => .ok ⟨some 5, some ⟨0, 0, 100⟩⟩)
            (setupIndividualUpdateTimers ⟨[subA], [], 0, 1⟩).subs "a" false).post :=
  ⟨rfl, by decide⟩

/-- C1 as amended: provided every live per-item timer is tracked on some
record (no orphans), after `setupIndividualUpdateTimers` every record that
is enabled, HTTP(S)-backed and has `updateInterval > 0` tracks exactly one
live timer with period `updateInterval * 60 * 1000` whose tick is the
batch-singleton update for that record's id (`.perItemTick`, executing
`individualUpdateTick`); ineligible records track none; every live timer
belongs to exactly one such record; and timer handles are pairwise
distinct. -/
theorem spec_C1_per_item_timers_amended (st : AppState)
    (hclean : ∀ ht ∈ st.timers, ht.1 ∈ trackedHandles st.subs) :
    (∀ s' ∈ (setupIndividualUpdateTimers st).subs,
      (perItemEligible s' = true →
        ∃ h, s'.updateTimers = [h] ∧
          (h, (⟨perItemPeriod s', .perItemTick s'.id⟩ : TimerEntry)) ∈
            (setupIndividualUpdateTimers st).timers) ∧
      (perItemEligible s' = false → s'.updateTimers = [])) ∧
    (∀ ht ∈ (setupIndividualUpdateTimers st).timers,
      ∃ s' ∈ (setupIndividualUpdateTimers st).subs, perItemEligible s' = true ∧
        s'.updateTimers = [ht.1] ∧ ht.2 = ⟨perItemPeriod s', .perItemTick s'.id⟩) ∧
    ((setupIndividualUpdateTimers st).timers.map Prod.fst).Nodup := by
  have htnil : (clearIndividualUpdateTimers st).timers = [] := by
    apply List.filter_eq_nil_iff.mpr
    intro ht hht
    simp only [Bool.not_eq_true', Bool.not_eq_true]
    simpa using List.elem_iff.mpr (hclean ht hht)
  have hsubs : ∀ s ∈ (clearIndividualUpdateTimers st).subs, s.updateTimers = [] := by
    intro s hs
    simp only [clearIndividualUpdateTimers, List.mem_map] at hs
    obtain ⟨t, _, rfl⟩ := hs
    rfl
  obtain ⟨h1, h2, _, _, h5⟩ :=
    armTimers_spec (clearIndividualUpdateTimers st).subs
      (clearIndividualUpdateTimers st).nextHandle hsubs
  have est : setupIndividualUpdateTimers st =
      { clearIndividualUpdateTimers st with
        subs := (armTimers (clearIndividualUpdateTimers st).nextHandle
          (clearIndividualUpdateTimers st).subs).1
        timers := (armTimers (clearIndividualUpdateTimers st).nextHandle
          (clearIndividualUpdateTimers st).subs).2.1
        nextHandle := (armTimers (clearIndividualUpdateTimers st).nextHandle
          (clearIndividualUpdateTimers st).subs).2.2 } := by
    simp [setupIndividualUpdateTimers, htnil]
  rw [est]
  exact ⟨h1, h2, h5⟩

/-- Witness for the amended C1: a clean state with one eligible and one
ineligible record. -/
theorem spec_C1_per_item_timers_amended_witness :
    (∀ ht ∈ (⟨[subA, subManual], [], 0, 1⟩ : AppState).timers,
        ht.1 ∈ trackedHandles (⟨[subA, subManual], [], 0, 1⟩ : AppState).subs) ∧
      ((∀ s' ∈ (setupIndividualUpdateTimers ⟨[subA, subManual], [], 0, 1⟩).subs,
          (perItemEligible s' = true →
            ∃ h, s'.updateTimers = [h] ∧
              (h, (⟨perItemPeriod s', .perItemTick s'.id⟩ : TimerEntry)) ∈
                (setupIndividualUpdateTimers ⟨[subA, subManual], [], 0, 1⟩).timers) ∧
          (perItemEligible s' = false → s'.updateTimers = [])) ∧
        (∀ ht ∈ (setupIndividualUpdateTimers ⟨[subA, subManual], [], 0, 1⟩).timers,
          ∃ s' ∈ (setupIndividualUpdateTimers ⟨[subA, subManual], [], 0, 1⟩).subs,
            perItemEligible s' = true ∧
              s'.updateTimers = [ht.1] ∧ ht.2 = ⟨perItemPeriod s', .perItemTick s'.id⟩) ∧
        ((setupIndividualUpdateTimers ⟨[subA, subManual], [], 0, 1⟩).timers.map
            Prod.fst).Nodup) :=
  ⟨by simp, spec_C1_per_item_timers_amended ⟨[subA, subManual], [], 0, 1⟩ (by simp)⟩

/-! ## C8: timers on record deletion -/

/-- Counterexample to C8 as stated: arm the per-item timer for `subA`
(lines 69–110), then delete that record (lines 206–212). The deletion code
only filters the collection — it never touches the timers — so the state
reached has a live per-item timer for id `"a"` while no record with that
id remains: a live timer referencing a discarded record. -/
theorem spec_C8_counterexample :
    (deleteSubscription (setupIndividualUpdateTimers ⟨[subA], [], 0, 1⟩) "a").timers =
        [(0, ⟨60000, .perItemTick "a"⟩)] ∧
      (deleteSubscription (setupIndividualUpdateTimers ⟨[subA], [], 0, 1⟩) "a").subs = [] :=
  ⟨rfl, rfl⟩

/-- C8 as amended: neither `deleteSubscription` nor `deleteAllSubscriptions`
cancels any timer (the live timer set is untouched, so deleting a record
with armed timers orphans them); tracked timers are cancelled only by
`clearIndividualUpdateTimers` — which removes every tracked handle from
the live set and empties every record's `updateTimers`. -/
theorem spec_C8_timer_cancellation_amended (st : AppState) (subId : String) :
    (deleteSubscription st subId).timers = st.timers ∧
    (deleteAllSubscriptions st).timers = st.timers ∧
    (∀ hdl ∈ trackedHandles st.subs, ∀ e : TimerEntry,
      (hdl, e) ∉ (clearIndividualUpdateTimers st).timers) ∧
    (∀ s ∈ (clearIndividualUpdateTimers st).subs, s.updateTimers = []) := by
  refine ⟨rfl, rfl, ?_, ?_⟩
  · intro hdl hmem e hin
    have := List.of_mem_filter hin
    simp only [Bool.not_eq_true', Bool.not_eq_true] at this
    exact absurd (List.elem_iff.mpr hmem) (by simpa using this)
  · intro s hs
    simp only [clearIndividualUpdateTimers, List.mem_map] at hs
    obtain ⟨t, _, rfl⟩ := hs
    rfl

/-- Witness for the amended C8 at a state holding a live tracked timer. -/
theorem spec_C8_timer_cancellation_amended_witness :
    5 ∈ trackedHandles (setupIndividualUpdateTimers ⟨[subA], [], 5, 1⟩).subs ∧
      (deleteSubscription (setupIndividualUpdateTimers ⟨[subA], [], 5, 1⟩) "x").timers =
          (setupIndividualUpdateTimers ⟨[subA], [], 5, 1⟩).timers ∧
        ∀ e : TimerEntry,
          (5, e) ∉
            (clearIndividualUpdateTimers
                (setupIndividualUpdateTimers ⟨[subA], [], 5, 1⟩)).timers :=
  ⟨by decide,
    (spec_C8_timer_cancellation_amended (setupIndividualUpdateTimers ⟨[subA], [], 5, 1⟩)
        "x").1,
    fun e =>
      (spec_C8_timer_cancellation_amended (setupIndividualUpdateTimers ⟨[subA], [], 5, 1⟩)
          "x").2.2.1 5 (by decide) e⟩

/-! ## C6: update with URL change -/

/-- C6, evaluated at the failing input. The claim says the triggered
refresh fetches the NEW url and writes its result onto the record now in
the collection; the code calls `handleUpdateNodeCount` before replacing
the array slot (lines 197–201), so the refresh captures the OLD record:
it fetches the OLD url, and its completion writes to the detached old
object — the record in the collection keeps `nodeCount = 0` and its
`userInfo` is never updated from the fetch, no matter which URL answered
what. Here the oracle answers 42 nodes for the new URL and 9 for the old
one: the run fetches `"http://a"` (old), the lost write carries the old
URL's data `(9, {3,4,50})`, and the stored record still has `subA`'s
original `userInfo`. -/
theorem spec_C6_code_evaluation :
    (updateSubscription
        (fun u => if u == "http://new" then .ok ⟨some 42, some ⟨1, 2, 100⟩⟩
          else .ok ⟨some 9, some ⟨3, 4, 50⟩⟩)
        [subA] { subA with url := "http://new" }).fetched = some "http://a" ∧
    (updateSubscription
        (fun u => if u == "http://new" then .ok ⟨some 42, some ⟨1, 2, 100⟩⟩
          else .ok ⟨some 9, some ⟨3, 4, 50⟩⟩)
        [subA] { subA with url := "http://new" }).subs =
      [{ subA with url := "http://new", nodeCount := 0 }] ∧
    (updateSubscription
        (fun u => if u == "http://new" then .ok ⟨some 42, some ⟨1, 2, 100⟩⟩
          else .ok ⟨some 9, some ⟨3, 4, 50⟩⟩)
        [subA] { subA with url := "http://new" }).lostWrite = some (9, some ⟨3, 4, 50⟩) ∧
    (updateSubscription
        (fun u => if u == "http://new" then .ok ⟨some 42, some ⟨1, 2, 100⟩⟩
          else .ok ⟨some 9, some ⟨3, 4, 50⟩⟩)
        [subA] { subA with url := "http://new" }).markedDirty = true := by
  refine ⟨rfl, by decide, rfl, rfl⟩

/-! ## C9: identifier uniqueness -/

theorem updateFirst_setUpdating_ids (b : Bool) (p : Subscription → Bool)
    (l : List Subscription) :
    (updateFirst p (fun s => { s with isUpdating := b }) l).map (fun s => s.id) =
      l.map (fun s => s.id) :=
  updateFirst_map (g := fun s => s.id) (f := fun s => { s with isUpdating := b })
    (fun s => rfl) l

theorem updateFirst_applyFetch_ids (d : FetchData) (p : Subscription → Bool)
    (l : List Subscription) :
    (updateFirst p
        (fun s => { s with nodeCount := d.count.getD 0, userInfo := d.userInfo,
                           isUpdating := false }) l).map (fun s => s.id) =
      l.map (fun s => s.id) :=
  updateFirst_map (g := fun s => s.id)
    (f := fun s => { s with nodeCount := d.count.getD 0, userInfo := d.userInfo,
                            isUpdating := false })
    (fun s => rfl) l

theorem handleUpdateNodeCount_post_ids (fetch : String → FetchResult)
    (subs : List Subscription) (subId : String) (isInitialLoad : Bool) :
    (handleUpdateNodeCount fetch subs subId isInitialLoad).post.map (fun s => s.id) =
      subs.map (fun s => s.id) := by
  match hfind : subs.find? (fun s => s.id == subId) with
  | none => simp [handleUpdateNodeCount, hfind]
  | some s0 =>
    by_cases hurl : isHttpUrl s0.url
    · simp only [handleUpdateNodeCount, hfind, hurl, if_true]
      match fetch s0.url with
      | .ok data =>
        cases isInitialLoad
        · simp only [Bool.false_eq_true, if_false]
          rw [updateFirst_applyFetch_ids, updateFirst_setUpdating_ids]
        · simp only [if_true]
          rw [updateFirst_applyFetch_ids]
      | .err =>
        cases isInitialLoad
        · simp only [Bool.false_eq_true, if_false]
          rw [updateFirst_setUpdating_ids, updateFirst_setUpdating_ids]
        · simp only [if_true]
          rw [updateFirst_setUpdating_ids]
    · simp [handleUpdateNodeCount, hfind, hurl]

theorem applyBatchResults_ids (subs : List Subscription) (results : List BatchItemResult) :
    (applyBatchResults subs results).map (fun s => s.id) = subs.map (fun s => s.id) := by
  have h := applyBatchResults_map_erase results subs
  calc (applyBatchResults subs results).map (fun s => s.id)
      = ((applyBatchResults subs results).map eraseNodeCount).map (fun s => s.id) := by
        simp [eraseNodeCount]
    _ = (subs.map eraseNodeCount).map (fun s => s.id) := by rw [h]
    _ = subs.map (fun s => s.id) := by simp [eraseNodeCount]

theorem refreshFold_ids (fetch : String → FetchResult) (ids : List String) :
    ∀ subs : List Subscription,
      (refreshFold fetch subs ids).map (fun s => s.id) = subs.map (fun s => s.id) := by
  induction ids with
  | nil => intro subs; rfl
  | cons id rest ih =>
    intro subs
    show (refreshFold fetch (handleUpdateNodeCount fetch subs id false).post rest).map _ = _
    rw [ih, handleUpdateNodeCount_post_ids]

theorem updateSubscription_ids (fetch : String → FetchResult) (subs : List Subscription)
    (u : Subscription) :
    (updateSubscription fetch subs u).subs.map (fun s => s.id) = subs.map (fun s => s.id) := by
  match hfind : subs.find? (fun s => s.id == u.id) with
  | none => simp [updateSubscription, hfind]
  | some old =>
    by_cases hurl : old.url == u.url
    · simp only [updateSubscription, hfind, hurl, if_true]
      exact updateFirst_replace_map_id rfl subs
    · simp only [updateSubscription, hfind, hurl, Bool.false_eq_true, if_false]
      by_cases hh : isHttpUrl old.url
      · simp only [hh, if_true]
        match fetch old.url with
        | .ok data =>
          show (updateFirst (fun s => s.id == u.id) (fun _ => { u with nodeCount := 0 })
              subs).map (fun s => s.id) = _
          exact updateFirst_replace_map_id (u := { u with nodeCount := 0 }) rfl subs
        | .err =>
          show (updateFirst (fun s => s.id == u.id) (fun _ => { u with nodeCount := 0 })
              subs).map (fun s => s.id) = _
          exact updateFirst_replace_map_id (u := { u with nodeCount := 0 }) rfl subs
      · simp only [hh, Bool.false_eq_true, if_false]
        show (updateFirst (fun s => s.id == u.id) (fun _ => { u with nodeCount := 0 })
            subs).map (fun s => s.id) = _
        exact updateFirst_replace_map_id (u := { u with nodeCount := 0 }) rfl subs

theorem degradeSequentially_fst (fetch : String → FetchResult) (subs : List Subscription)
    (toUpdate : List Subscription) :
    (degradeSequentially fetch subs toUpdate).1 =
      refreshFold fetch subs (toUpdate.map (fun s => s.id)) :=
  degradeSequentially_state fetch toUpdate subs [] []

theorem degradeSequentially_snd (fetch : String → FetchResult) (subs : List Subscription)
    (toUpdate : List Subscription) :
    (degradeSequentially fetch subs toUpdate).2.1 = toUpdate.map (fun s => s.id) := by
  simpa using degradeSequentially_invocations fetch toUpdate subs [] []

theorem addSubscriptionsFromBulk_ids (batch : List String → BatchOutcome)
    (fetch : String → FetchResult) (subs newSubs : List Subscription) :
    (addSubscriptionsFromBulk batch fetch subs newSubs).subs.map (fun s => s.id) =
      (newSubs ++ subs).map (fun s => s.id) := by
  by_cases he : (newSubs.filter (fun s => isHttpUrl s.url)).isEmpty
  · simp [addSubscriptionsFromBulk, he]
  · simp only [addSubscriptionsFromBulk, he, Bool.false_eq_true, if_false]
    match hb : batch ((newSubs.filter (fun s => isHttpUrl s.url)).map (fun s => s.id)) with
    | .completed true results =>
      simp only [hb]
      exact applyBatchResults_ids _ _
    | .completed false results =>
      simp only [hb]
      rw [degradeSequentially_fst, refreshFold_ids]
    | .threw =>
      simp only [hb]
      rw [degradeSequentially_fst, refreshFold_ids]

theorem globalAutoUpdateTick_ids (batch : List String → BatchOutcome)
    (subs : List Subscription) :
    (globalAutoUpdateTick batch subs).subs.map (fun s => s.id) = subs.map (fun s => s.id) := by
  by_cases he : (subs.filter (fun s => s.enabled && isHttpUrl s.url)).isEmpty
  · simp [globalAutoUpdateTick, he]
  · simp only [globalAutoUpdateTick, he, Bool.false_eq_true, if_false]
    match hb : batch ((subs.filter (fun s => s.enabled && isHttpUrl s.url)).map
        (fun s => s.id)) with
    | .completed true results =>
      simp only [hb]
      exact applyBatchResults_ids _ _
    | .completed false results => simp only [hb]
    | .threw => simp only [hb]

theorem individualUpdateTick_ids (batch : List String → BatchOutcome)
    (subs : List Subscription) (subId : String) :
    (individualUpdateTick batch subs subId).1.map (fun s => s.id) = subs.map (fun s => s.id) := by
  match hb : batch [subId] with
  | .completed true results =>
    simp only [individualUpdateTick, hb]
    exact applyBatchResults_ids _ _
  | .completed false results => simp only [individualUpdateTick, hb]
  | .threw => simp only [individualUpdateTick, hb]

theorem stepOp_preserves (op : Op) (subs : List Subscription) (hu : UniqueIds subs)
    (hn : IdsNonempty subs) (hok : opOK op subs) :
    UniqueIds (stepOp op subs).1 ∧ IdsNonempty (stepOp op subs).1 := by
  cases op with
  | init g raws => exact hok
  | add f sub =>
    have hids : (stepOp (.add f sub) subs).1.map (fun s => s.id) =
        sub.id :: subs.map (fun s => s.id) := by
      show (handleUpdateNodeCount f (sub :: subs) sub.id false).post.map (fun s => s.id) = _
      rw [handleUpdateNodeCount_post_ids]
      rfl
    constructor
    · show ((stepOp (.add f sub) subs).1.map (fun s => s.id)).Nodup
      rw [hids]
      refine List.nodup_cons.mpr ⟨?_, hu⟩
      intro hmem
      obtain ⟨s, hs, hsid⟩ := List.mem_map.mp hmem
      exact hok.2 s hs hsid
    · intro id hid
      rw [hids] at hid
      rcases List.mem_cons.mp hid with rfl | hmem
      · exact hok.1
      · exact hn id hmem
  | addBulk b f newSubs =>
    have hids : (stepOp (.addBulk b f newSubs) subs).1.map (fun s => s.id) =
        newSubs.map (fun s => s.id) ++ subs.map (fun s => s.id) := by
      show (addSubscriptionsFromBulk b f subs newSubs).subs.map (fun s => s.id) = _
      rw [addSubscriptionsFromBulk_ids]
      simp
    constructor
    · show ((stepOp (.addBulk b f newSubs) subs).1.map (fun s => s.id)).Nodup
      rw [hids]
      refine List.Nodup.append hok.1 hu ?_
      intro a ha hb
      obtain ⟨n, hnmem, rfl⟩ := List.mem_map.mp ha
      obtain ⟨s, hsmem, hsid⟩ := List.mem_map.mp hb
      exact hok.2.2 n hnmem s hsmem hsid
    · intro id hid
      rw [hids] at hid
      rcases List.mem_append.mp hid with hmem | hmem
      · obtain ⟨n, hnmem, rfl⟩ := List.mem_map.mp hmem
        exact hok.2.1 n hnmem
      · exact hn id hmem
  | update f sub =>
    have hids : (stepOp (.update f sub) subs).1.map (fun s => s.id) =
        subs.map (fun s => s.id) := updateSubscription_ids f subs sub
    constructor
    · show ((stepOp (.update f sub) subs).1.map (fun s => s.id)).Nodup
      rw [hids]
      exact hu
    · intro id hid
      exact hn id (by rwa [hids] at hid)
  | del subId =>
    constructor
    · show ((deleteFilter subs subId).map (fun s => s.id)).Nodup
      have hu' : (subs.map (fun s => s.id)).Nodup := hu
      exact ((List.filter_sublist subs).map (fun s => s.id)).nodup hu'
    · intro id hid
      obtain ⟨s, hs, rfl⟩ := List.mem_map.mp hid
      exact hn s.id (List.mem_map_of_mem _ (List.mem_of_mem_filter hs))
  | delAll => exact ⟨List.nodup_nil, by intro id hid; simp [stepOp] at hid⟩
  | refreshSingle f subId isInitialLoad =>
    have hids : (stepOp (.refreshSingle f subId isInitialLoad) subs).1.map (fun s => s.id) =
        subs.map (fun s => s.id) := handleUpdateNodeCount_post_ids f subs subId isInitialLoad
    constructor
    · show ((stepOp (.refreshSingle f subId isInitialLoad) subs).1.map (fun s => s.id)).Nodup
      rw [hids]
      exact hu
    · intro id hid
      exact hn id (by rwa [hids] at hid)
  | globalTickOp b =>
    have hids : (stepOp (.globalTickOp b) subs).1.map (fun s => s.id) =
        subs.map (fun s => s.id) := globalAutoUpdateTick_ids b subs
    constructor
    · show ((stepOp (.globalTickOp b) subs).1.map (fun s => s.id)).Nodup
      rw [hids]
      exact hu
    · intro id hid
      exact hn id (by rwa [hids] at hid)
  | perItemTickOp b subId =>
    have hids : (stepOp (.perItemTickOp b subId) subs).1.map (fun s => s.id) =
        subs.map (fun s => s.id) := individualUpdateTick_ids b subs subId
    constructor
    · show ((stepOp (.perItemTickOp b subId) subs).1.map (fun s => s.id)).Nodup
      rw [hids]
      exact hu
    · intro id hid
      exact hn id (by rwa [hids] at hid)

/-- Counterexample to C9 as stated: no operation enforces uniqueness.
Initializing from a host list whose elements both carry id `"a"`
(lines 122–132 keep a non-empty input id as-is) yields two records with
the same identifier after a perfectly ordinary operation sequence. -/
theorem spec_C9_counterexample :
    (runOps [.init (fun n => "u" ++ toString n) [rawIdA, rawIdA]] []).map (fun s => s.id) =
        ["a", "a"] ∧
      ¬ UniqueIds (runOps [.init (fun n => "u" ++ toString n) [rawIdA, rawIdA]] []) :=
  ⟨rfl,
    (by decide :
      ¬ ((runOps [.init (fun n => "u" ++ toString n) [rawIdA, rawIdA]] []).map
          (fun s => s.id)).Nodup)⟩

/-- C9 as amended: identifier uniqueness and non-emptiness are preserved by
every operation sequence PROVIDED the incoming identifiers are fresh:
initialization produces pairwise-distinct non-empty ids (true when the
UUID supply is fresh and host ids do not collide), `add` receives a
non-empty id not already present, and `addBulk` receives distinct
non-empty ids disjoint from the collection. The remaining operations
(update, delete, deleteAll, refreshes, ticks) need no condition — they
never change the id sequence except by removal. -/
theorem spec_C9_unique_ids_amended (ops : List Op) :
    ∀ subs : List Subscription, UniqueIds subs → IdsNonempty subs → okTrace ops subs →
      UniqueIds (runOps ops subs) ∧ IdsNonempty (runOps ops subs) := by
  induction ops with
  | nil => intro subs hu hn _; exact ⟨hu, hn⟩
  | cons op rest ih =>
    intro subs hu hn hok
    obtain ⟨hopok, htrace⟩ := hok
    obtain ⟨hu', hn'⟩ := stepOp_preserves op subs hu hn hopok
    exact ih (stepOp op subs).1 hu' hn' htrace

/-- Witness for the amended C9 on a concrete three-step trace: initialize
two records (one host id, one generated), add a fresh record, delete one. -/
theorem spec_C9_unique_ids_amended_witness :
    UniqueIds ([] : List Subscription) ∧ IdsNonempty ([] : List Subscription) ∧
      okTrace
        [.init (fun n => "u" ++ toString n) [rawIdA, rawAllMissing],
          .add (fun _ => .err) (mkSub "b" "B" "http://b" true 0 none none), .del "a"]
        [] ∧
      (UniqueIds
          (runOps
            [.init (fun n => "u" ++ toString n) [rawIdA, rawAllMissing],
              .add (fun _ => .err) (mkSub "b" "B" "http://b" true 0 none none), .del "a"]
            []) ∧
        IdsNonempty
          (runOps
            [.init (fun n => "u" ++ toString n) [rawIdA, rawAllMissing],
              .add (fun _ => .err) (mkSub "b" "B" "http://b" true 0 none none), .del "a"]
            [])) := by
  have hok : okTrace
      [.init (fun n => "u" ++ toString n) [rawIdA, rawAllMissing],
        .add (fun _ => .err) (mkSub "b" "B" "http://b" true 0 none none), .del "a"]
      [] := by
    refine ⟨⟨?_, ?_⟩, ⟨?_, ?_⟩, trivial, trivial⟩
    · exact (by decide :
        ((initializeSubscriptions (fun n => "u" ++ toString n) [rawIdA, rawAllMissing]).map
          (fun s => s.id)).Nodup)
    · exact (by decide :
        ∀ id ∈ (initializeSubscriptions (fun n => "u" ++ toString n)
            [rawIdA, rawAllMissing]).map (fun s => s.id), id ≠ "")
    · decide
    · decide
  refine ⟨(by decide : (([] : List Subscription).map (fun s => s.id)).Nodup),
    fun id hid => absurd hid (List.not_mem_nil id), hok, ?_⟩
  exact spec_C9_unique_ids_amended _ [] (by decide : (([] : List Subscription).map
      (fun s => s.id)).Nodup)
    (fun id hid => absurd hid (List.not_mem_nil id)) hok

end MiSub
